import Mathlib

/-!
Verification development for the SYNTH polyphonic synthesizer core.

The C++ sources (Oscillator.h, UnisonOscillator.h, VintageProcessor.h,
SynthVoice.h/.cpp, PluginProcessor.cpp) are shallowly embedded below.
C++ `double`/`float` arithmetic is modelled by the real numbers; stateful
classes become structures with explicit state-passing functions.  The
`juce::ADSR` envelope and the `juce::dsp::StateVariableTPTFilter` are
external library components whose implementations are not part of the
repository: the envelope is modelled from the specification (section 4.3)
and the filter is abstracted as a state-transformer parameter.
-/

noncomputable section

/-- juce::jlimit lowerLimit upperLimit valueToConstrain:
returns lowerLimit if the value is below it, upperLimit if above it,
and the value itself otherwise. -/
def jlimit {α : Type} [LinearOrder α] (lowerLimit upperLimit value : α) : α :=
  if value < lowerLimit then lowerLimit
  else if upperLimit < value then upperLimit
  else value

/-- The four waveforms of Oscillator.h. -/
inductive OscillatorWaveform
  | Sine
  | Saw
  | Square
  | Triangle
deriving DecidableEq, BEq

/-- State of one Oscillator (Oscillator.h): current waveform, phase in
cycles and per-sample phase increment. -/
structure Oscillator where
  currentWaveform : OscillatorWaveform
  currentPhase : ℝ
  phaseDelta : ℝ

namespace Oscillator

/-- Oscillator.h default member values. -/
def init : Oscillator :=
  { currentWaveform := OscillatorWaveform.Sine, currentPhase := 0, phaseDelta := 0 }

/-- Oscillator::setWaveform. -/
def setWaveform (waveform : OscillatorWaveform) (st : Oscillator) : Oscillator :=
  { st with currentWaveform := waveform }

/-- Oscillator::setFrequency: phaseDelta := frequency / sampleRate. -/
def setFrequency (frequency sampleRate : ℝ) (st : Oscillator) : Oscillator :=
  { st with phaseDelta := frequency / sampleRate }

/-- Oscillator::reset: zero the phase. -/
def reset (st : Oscillator) : Oscillator :=
  { st with currentPhase := 0 }

/-- Oscillator::polyBlep: polynomial band-limited step correction near the
phase discontinuities at t = 0 and t = 1. -/
def polyBlep (t dt : ℝ) : ℝ :=
  if t < dt then
    (t / dt) + (t / dt) - (t / dt) * (t / dt) - 1
  else if t > 1 - dt then
    ((t - 1) / dt) * ((t - 1) / dt) + ((t - 1) / dt) + ((t - 1) / dt) + 1
  else 0

/-- The sample value produced by Oscillator::getNextSample from phase t and
increment dt, per waveform (the body of the switch statement). -/
def waveSample (w : OscillatorWaveform) (t dt : ℝ) : ℝ :=
  match w with
  | OscillatorWaveform.Sine => Real.sin (t * (2 * Real.pi))
  | OscillatorWaveform.Saw => ((2 * t) - 1) - polyBlep t dt
  | OscillatorWaveform.Square =>
      (if t < 1/2 then (1 : ℝ) else -1)
        + polyBlep t dt
        - polyBlep (if t + 1/2 < 1 then t + 1/2 else t + 1/2 - 1) dt
  | OscillatorWaveform.Triangle =>
      if t < 1/2 then -1 + 4 * t else 3 - 4 * t

/-- Phase advance at the end of Oscillator::getNextSample:
add phaseDelta, subtract 1 when the result reaches 1. -/
def phaseStep (t dt : ℝ) : ℝ :=
  if t + dt ≥ 1 then t + dt - 1 else t + dt

/-- Oscillator::getNextSample: returns the sample computed from the current
phase, together with the state holding the advanced (wrapped) phase. -/
def getNextSample (st : Oscillator) : ℝ × Oscillator :=
  (waveSample st.currentWaveform st.currentPhase st.phaseDelta,
   { st with currentPhase := phaseStep st.currentPhase st.phaseDelta })

/-- n successive calls to Oscillator::getNextSample (state evolution). -/
def iterate : ℕ → Oscillator → Oscillator
  | 0, st => st
  | n + 1, st => iterate n (getNextSample st).2

end Oscillator

/-- State of the UnisonOscillator (UnisonOscillator.h): the seven owned
sub-oscillators (modelled as a total index function; the loops only touch
indices below numVoices), the active voice count and the detune / stereo
width amounts. -/
structure UnisonOscillator where
  numVoices : ℤ
  detuneAmount : ℝ
  stereoWidth : ℝ
  oscillators : ℕ → Oscillator

namespace UnisonOscillator

/-- UnisonOscillator.h: static constexpr int maxVoices = 7. -/
def maxVoices : ℤ := 7

/-- UnisonOscillator.h default member values (7 fresh oscillators,
numVoices = 1, detuneAmount = 0.5, stereoWidth = 0.5). -/
def init : UnisonOscillator :=
  { numVoices := 1, detuneAmount := 0.5, stereoWidth := 0.5,
    oscillators := fun _ => Oscillator.init }

/-- UnisonOscillator::setNumVoices: clamp to [1, maxVoices]. -/
def setNumVoices (num : ℤ) (st : UnisonOscillator) : UnisonOscillator :=
  { st with numVoices := jlimit 1 maxVoices num }

/-- UnisonOscillator::setDetuneAmount: clamp to [0, 1]. -/
def setDetuneAmount (amount : ℝ) (st : UnisonOscillator) : UnisonOscillator :=
  { st with detuneAmount := jlimit 0 1 amount }

/-- UnisonOscillator::setStereoWidth: clamp to [0, 1]. -/
def setStereoWidth (width : ℝ) (st : UnisonOscillator) : UnisonOscillator :=
  { st with stereoWidth := jlimit 0 1 width }

/-- UnisonOscillator::setWaveform: broadcast to all sub-oscillators. -/
def setWaveform (waveform : OscillatorWaveform) (st : UnisonOscillator) : UnisonOscillator :=
  { st with oscillators := fun i => Oscillator.setWaveform waveform (st.oscillators i) }

/-- The per-voice frequency ratio computed in UnisonOscillator::setFrequency:
`float voiceDetune = 0.0f` is only overwritten in the `numVoices > 1` branch
with 2^(voiceIndex * detuneAmount * 15 / 1200), voiceIndex being the
integer-division-centered index i - numVoices/2. -/
def voiceDetune (numVoices : ℤ) (detuneAmount : ℝ) (i : ℕ) : ℝ :=
  if 1 < numVoices then
    (2 : ℝ) ^ ((((i : ℤ) - numVoices / 2 : ℤ) : ℝ) * detuneAmount * 15 / 1200)
  else 0

/-- UnisonOscillator::setFrequency: each active voice i gets frequency
frequency * voiceDetune. -/
def setFrequency (frequency sampleRate : ℝ) (st : UnisonOscillator) : UnisonOscillator :=
  { st with oscillators := fun i =>
      if (i : ℤ) < st.numVoices then
        (Oscillator.setFrequency (frequency * voiceDetune st.numVoices st.detuneAmount i)
          sampleRate (st.oscillators i))
      else st.oscillators i }

/-- The pan position of voice i in UnisonOscillator::getNextSampleStereo
(0 unless numVoices > 1). -/
def pan (st : UnisonOscillator) (i : ℕ) : ℝ :=
  if 1 < st.numVoices then
    (2 * (i : ℝ) / ((st.numVoices : ℝ) - 1) - 1) * st.stereoWidth
  else 0

/-- panAngle = (pan + 1) * 0.25 * pi (equal-power pan law). -/
def panAngle (st : UnisonOscillator) (i : ℕ) : ℝ :=
  (pan st i + 1) * 0.25 * Real.pi

/-- leftGain = cos(panAngle). -/
def leftGain (st : UnisonOscillator) (i : ℕ) : ℝ :=
  Real.cos (panAngle st i)

/-- rightGain = sin(panAngle). -/
def rightGain (st : UnisonOscillator) (i : ℕ) : ℝ :=
  Real.sin (panAngle st i)

/-- UnisonOscillator::getNextSampleStereo: sum each active voice's sample
against its equal-power gains, normalize both sums by 1/sqrt(numVoices),
and advance every active voice's oscillator. -/
def getNextSampleStereo (st : UnisonOscillator) : (ℝ × ℝ) × UnisonOscillator :=
  let sample := fun i => (Oscillator.getNextSample (st.oscillators i)).1
  let leftSum := Finset.sum (Finset.range st.numVoices.toNat)
    (fun i => sample i * leftGain st i)
  let rightSum := Finset.sum (Finset.range st.numVoices.toNat)
    (fun i => sample i * rightGain st i)
  let normFactor := 1 / Real.sqrt (st.numVoices : ℝ)
  ((leftSum * normFactor, rightSum * normFactor),
   { st with oscillators := fun i =>
       if i < st.numVoices.toNat then (Oscillator.getNextSample (st.oscillators i)).2
       else st.oscillators i })

/-- UnisonOscillator::reset: broadcast reset to all sub-oscillators. -/
def reset (st : UnisonOscillator) : UnisonOscillator :=
  { st with oscillators := fun i => Oscillator.reset (st.oscillators i) }

end UnisonOscillator

/-- Modelled from the spec: the stages of the four-stage envelope generator
(section 4.3); the repository uses the external juce::ADSR, whose source is
not part of the repository. -/
inductive ADSRStage
  | idle
  | attack
  | decay
  | sustain
  | kRelease
deriving DecidableEq, BEq

/-- Modelled from the spec: state of one envelope generator (juce::ADSR):
current stage, current output value in [0,1], and the configured stage
durations (seconds), sustain level and sample rate. -/
structure ADSR where
  stage : ADSRStage
  value : ℝ
  attackTime : ℝ
  decayTime : ℝ
  sustainLevel : ℝ
  releaseTime : ℝ
  sampleRate : ℝ

namespace ADSR

/-- Modelled from the spec: a fresh, idle envelope with the plugin's
default amplitude-envelope parameters (attack 0.1 s, decay 0.1 s,
sustain 0.8, release 0.1 s at 44100 Hz). -/
def init : ADSR :=
  { stage := ADSRStage.idle, value := 0, attackTime := 0.1, decayTime := 0.1,
    sustainLevel := 0.8, releaseTime := 0.1, sampleRate := 44100 }

/-- Modelled from the spec: noteOn forces a transition to Attack regardless
of the current state. -/
def noteOn (m : ADSR) : ADSR :=
  { m with stage := ADSRStage.attack }

/-- Modelled from the spec: noteOff forces a transition to Release from any
active state; an idle envelope stays idle. -/
def noteOff (m : ADSR) : ADSR :=
  if m.stage = ADSRStage.idle then m else { m with stage := ADSRStage.kRelease }

/-- Modelled from the spec: isActive is true in any state except Idle. -/
def isActive (m : ADSR) : Bool :=
  m.stage != ADSRStage.idle

/-- Modelled from the spec: getNextSample returns the current output value
and advances the stage timer by one sample period, rising linearly to 1
over the attack, falling to the sustain level over the decay, holding at
sustain, and falling to 0 over the release, becoming Idle when the output
reaches 0 after Release (the exact interpolation curve is an
implementation choice left open by the spec; a linear one is used). -/
def getNextSample (m : ADSR) : ℝ × ADSR :=
  match m.stage with
  | ADSRStage.idle => (0, m)
  | ADSRStage.attack =>
      let v := m.value + 1 / (m.attackTime * m.sampleRate)
      if 1 ≤ v then (1, { m with value := 1, stage := ADSRStage.decay })
      else (v, { m with value := v })
  | ADSRStage.decay =>
      let v := m.value - (1 - m.sustainLevel) / (m.decayTime * m.sampleRate)
      if v ≤ m.sustainLevel then
        (m.sustainLevel, { m with value := m.sustainLevel, stage := ADSRStage.sustain })
      else (v, { m with value := v })
  | ADSRStage.sustain => (m.sustainLevel, { m with value := m.sustainLevel })
  | ADSRStage.kRelease =>
      let v := m.value - 1 / (m.releaseTime * m.sampleRate)
      if v ≤ 0 then (0, { m with value := 0, stage := ADSRStage.idle })
      else (v, { m with value := v })

end ADSR

namespace VintageProcessor

/-- VintageProcessor::softClip: tanh saturation at gain 1.5 followed by a
0.8 gain compensation. -/
def softClip (sample : ℝ) : ℝ :=
  Real.tanh (sample * 1.5) * 0.8

/-- VintageProcessor::addAnalogNoise, with the uniform draw
random.nextFloat() in [0,1) passed in explicitly as r: if disabled return
0, otherwise (r * 2 - 1) * 0.0003 * level * 100. -/
def addAnalogNoise (enabled : Bool) (level : ℝ) (r : ℝ) : ℝ :=
  if enabled then (r * 2 - 1) * 0.0003 * level * 100 else 0

end VintageProcessor

/-- State of one SynthVoice (SynthVoice.h): the unison oscillator bank, the
two envelopes, the filter state (abstract type F, standing for the internal
state of the external juce::dsp::StateVariableTPTFilter), the cached filter
/ noise / level parameters, and the note bookkeeping.  `cleared` models
whether clearCurrentNote has marked the voice free (true = Free);
`filterCutoff` and `filterQ` model the cutoff / resonance settings pushed
into the filter via setCutoffFrequency / setResonance. -/
structure SynthVoice (F : Type) where
  oscillator : UnisonOscillator
  adsr : ADSR
  filterAdsr : ADSR
  filterState : F
  filterCutoff : ℝ
  filterQ : ℝ
  baseCutoff : ℝ
  filterResonance : ℝ
  filterEnvAmount : ℝ
  noiseEnabled : Bool
  noiseLevel : ℝ
  level : ℝ
  currentFrequency : ℝ
  currentSampleRate : ℝ
  cleared : Bool

namespace SynthVoice

/-- A fresh voice with the default member values of SynthVoice.h
(baseCutoff 1000, filterResonance 0.7, filterEnvAmount 0, noise disabled at
level 0.3, level 0, sample rate 44100), idle envelopes, and trivial filter
state. -/
def init : SynthVoice Unit :=
  { oscillator := UnisonOscillator.init, adsr := ADSR.init, filterAdsr := ADSR.init,
    filterState := (), filterCutoff := 1000, filterQ := 0.7,
    baseCutoff := 1000, filterResonance := 0.7, filterEnvAmount := 0,
    noiseEnabled := false, noiseLevel := 0.3, level := 0,
    currentFrequency := 0, currentSampleRate := 44100, cleared := true }

/-- juce::MidiMessage::getMidiNoteInHertz: 440 * 2^((note - 69) / 12). -/
def midiNoteInHertz (noteNumber : ℤ) : ℝ :=
  440 * (2 : ℝ) ^ (((noteNumber : ℝ) - 69) / 12)

/-- SynthVoice::startNote: convert the MIDI note to a frequency, configure
the unison oscillator at the current sample rate, set level = velocity *
0.15, reset the oscillator phases and trigger both envelopes' noteOn.  The
voice is the synthesiser's currently playing voice afterwards (cleared =
false). -/
def startNote {F : Type} (midiNoteNumber : ℤ) (velocity : ℝ) (v : SynthVoice F) :
    SynthVoice F :=
  let freq := midiNoteInHertz midiNoteNumber
  { v with
    currentFrequency := freq,
    oscillator := UnisonOscillator.reset
      (UnisonOscillator.setFrequency freq v.currentSampleRate v.oscillator),
    level := velocity * 0.15,
    adsr := ADSR.noteOn v.adsr,
    filterAdsr := ADSR.noteOn v.filterAdsr,
    cleared := false }

/-- SynthVoice::stopNote: trigger both envelopes' noteOff; when allowTailOff
is false or the amplitude envelope is (by then) inactive, call
clearCurrentNote (modelled as cleared := true). -/
def stopNote {F : Type} (allowTailOff : Bool) (v : SynthVoice F) : SynthVoice F :=
  let a := ADSR.noteOff v.adsr
  let fa := ADSR.noteOff v.filterAdsr
  let v' := { v with adsr := a, filterAdsr := fa }
  if !allowTailOff || !(ADSR.isActive a) then { v' with cleared := true } else v'

/-- SynthVoice::updateFilter: store cutoff, resonance and envelope amount,
and push the resonance into the filter (setResonance).  No clamping is
performed here. -/
def updateFilter {F : Type} (cutoff resonance envAmount : ℝ) (v : SynthVoice F) :
    SynthVoice F :=
  { v with baseCutoff := cutoff, filterResonance := resonance,
           filterEnvAmount := envAmount, filterQ := resonance }

/-- SynthVoice::updateUnison: forward voices / detune / stereo to the
unison oscillator's (clamping) setters. -/
def updateUnison {F : Type} (voices : ℤ) (detune stereo : ℝ) (v : SynthVoice F) :
    SynthVoice F :=
  { v with oscillator := (UnisonOscillator.setStereoWidth stereo
      (UnisonOscillator.setDetuneAmount detune
        (UnisonOscillator.setNumVoices voices v.oscillator))) }

/-- SynthVoice::updateNoise: store the enable flag and the level divided
by 100 (percent to [0,1]). -/
def updateNoise {F : Type} (enable : Bool) (levelPercent : ℝ) (v : SynthVoice F) :
    SynthVoice F :=
  { v with noiseEnabled := enable, noiseLevel := levelPercent / 100 }

/-- The modulated cutoff computed each sample in SynthVoice::renderNextBlock:
baseCutoff + filterEnvValue * (filterEnvAmount / 100) * 5000, clamped by
juce::jlimit to [20, 20000]. -/
def modulatedCutoff (baseCutoff filterEnvValue filterEnvAmount : ℝ) : ℝ :=
  jlimit 20 20000 (baseCutoff + filterEnvValue * (filterEnvAmount / 100) * 5000)

/-- One iteration of the per-sample loop of SynthVoice::renderNextBlock,
parameterized by the external filter's processSample function fs (state,
channel index, cutoff, resonance, input sample) and by this iteration's
uniform random draw z.  Returns the updated voice state and the stereo
pair added into the output buffer. -/
def renderSample {F : Type} (fs : F → ℕ → ℝ → ℝ → ℝ → F × ℝ) (z : ℝ)
    (v : SynthVoice F) : SynthVoice F × (ℝ × ℝ) :=
  let env := ADSR.getNextSample v.adsr
  let envValue := env.1
  let fenv := ADSR.getNextSample v.filterAdsr
  let filterEnvValue := fenv.1
  let cutoff := modulatedCutoff v.baseCutoff filterEnvValue v.filterEnvAmount
  let osc := UnisonOscillator.getNextSampleStereo v.oscillator
  let rawLeft := osc.1.1
  let rawRight := osc.1.2
  let ampLeft := rawLeft * v.level * envValue
  let ampRight := rawRight * v.level * envValue
  let fL := fs v.filterState 0 cutoff v.filterQ ampLeft
  let filteredLeft := VintageProcessor.softClip fL.2
  let fR := fs fL.1 1 cutoff v.filterQ ampRight
  let filteredRight := VintageProcessor.softClip fR.2
  let noise := VintageProcessor.addAnalogNoise v.noiseEnabled v.noiseLevel z
  ({ v with adsr := env.2, filterAdsr := fenv.2, oscillator := osc.2,
            filterState := fR.1, filterCutoff := cutoff },
   (filteredLeft + noise * envValue, filteredRight + noise * envValue))

/-- The while loop of SynthVoice::renderNextBlock: run numSamples
iterations, accumulating (addSample) each stereo pair into the buffer at
the running startSample index; each iteration draws one uniform value from
the stream. -/
def renderLoop {F : Type} (fs : F → ℕ → ℝ → ℝ → ℝ → F × ℝ) (stream : ℕ → ℝ) :
    ℕ → ℕ → SynthVoice F → (ℕ → ℝ × ℝ) → SynthVoice F × (ℕ → ℝ × ℝ)
  | _, 0, v, buffer => (v, buffer)
  | startSample, numSamples + 1, v, buffer =>
      let step := renderSample fs (stream startSample) v
      let out := step.2
      let buffer' := fun k =>
        if k = startSample then ((buffer k).1 + out.1, (buffer k).2 + out.2)
        else buffer k
      renderLoop fs stream (startSample + 1) numSamples step.1 buffer'

/-- SynthVoice::renderNextBlock: early-exit leaving voice and buffer
untouched when the amplitude envelope is inactive; otherwise run the
per-sample loop and, if the envelope has become inactive, clearCurrentNote. -/
def renderNextBlock {F : Type} (fs : F → ℕ → ℝ → ℝ → ℝ → F × ℝ) (stream : ℕ → ℝ)
    (v : SynthVoice F) (buffer : ℕ → ℝ × ℝ) (startSample numSamples : ℕ) :
    SynthVoice F × (ℕ → ℝ × ℝ) :=
  if ADSR.isActive v.adsr then
    let r := renderLoop fs stream startSample numSamples v buffer
    (if ADSR.isActive r.1.adsr then r.1 else { r.1 with cleared := true }, r.2)
  else (v, buffer)

end SynthVoice

/-- juce::jlimit lands in [lowerLimit, upperLimit] whenever the limits are
ordered. -/
theorem jlimit_mem {α : Type} [LinearOrder α] (lowerLimit upperLimit v : α)
    (h : lowerLimit ≤ upperLimit) :
    lowerLimit ≤ jlimit lowerLimit upperLimit v ∧
    jlimit lowerLimit upperLimit v ≤ upperLimit := by
  unfold jlimit
  split_ifs with h1 h2
  · exact ⟨le_refl _, h⟩
  · exact ⟨h, le_refl _⟩
  · exact ⟨not_lt.mp h1, not_lt.mp h2⟩

/-- Region analysis of Oscillator::polyBlep on [0,1): near the start of the
cycle the correction lies in [-1,0], near the end in [0,1], and elsewhere
it is 0. -/
theorem polyBlep_cases (t dt : ℝ) (ht0 : 0 ≤ t) (ht1 : t < 1) :
    (t < dt ∧ -1 ≤ Oscillator.polyBlep t dt ∧ Oscillator.polyBlep t dt ≤ 0) ∨
    (1 - dt < t ∧ 0 ≤ Oscillator.polyBlep t dt ∧ Oscillator.polyBlep t dt ≤ 1) ∨
    Oscillator.polyBlep t dt = 0 := by
  unfold Oscillator.polyBlep
  split_ifs with h1 h2
  · left
    have hdt : 0 < dt := lt_of_le_of_lt ht0 h1
    have hu0 : 0 ≤ t / dt := div_nonneg ht0 hdt.le
    have hu1 : t / dt < 1 := (div_lt_one hdt).mpr h1
    refine ⟨h1, ?_, ?_⟩
    · nlinarith [mul_nonneg hu0 hu0]
    · nlinarith [sq_nonneg (t / dt - 1)]
  · right; left
    have hdt : 0 < dt := by linarith
    have hu1 : (t - 1) / dt < 0 := div_neg_of_neg_of_pos (by linarith) hdt
    have hu2 : -1 < (t - 1) / dt := by
      rw [lt_div_iff₀ hdt]
      linarith
    refine ⟨h2, ?_, ?_⟩
    · nlinarith [sq_nonneg ((t - 1) / dt + 1)]
    · nlinarith [mul_nonneg (by linarith : (0:ℝ) ≤ (t - 1) / dt + 1)
        (by linarith : (0:ℝ) ≤ -((t - 1) / dt))]
  · right; right; rfl

/-- The sample produced by the switch of Oscillator::getNextSample lies in
[-1,1] for every waveform, every phase in [0,1) and every phase increment
in [0, 1/4]. -/
theorem waveSample_mem (w : OscillatorWaveform) (t dt : ℝ)
    (ht0 : 0 ≤ t) (ht1 : t < 1) (hd0 : 0 ≤ dt) (hd1 : dt ≤ 1/4) :
    -1 ≤ Oscillator.waveSample w t dt ∧ Oscillator.waveSample w t dt ≤ 1 := by
  cases w with
  | Sine =>
      exact ⟨Real.neg_one_le_sin _, Real.sin_le_one _⟩
  | Saw =>
      have hs : Oscillator.waveSample OscillatorWaveform.Saw t dt
          = ((2 * t) - 1) - Oscillator.polyBlep t dt := rfl
      rw [hs]
      rcases polyBlep_cases t dt ht0 ht1 with ⟨hr, hlo, hhi⟩ | ⟨hr, hlo, hhi⟩ | hz
      · constructor <;> linarith
      · constructor <;> linarith
      · rw [hz]; constructor <;> linarith
  | Square =>
      have hs : Oscillator.waveSample OscillatorWaveform.Square t dt
          = (if t < 1/2 then (1 : ℝ) else -1) + Oscillator.polyBlep t dt
            - Oscillator.polyBlep (if t + 1/2 < 1 then t + 1/2 else t + 1/2 - 1) dt := rfl
      rw [hs]
      by_cases ht : t + 1/2 < 1
      · rw [if_pos (by linarith : t < 1/2), if_pos ht]
        rcases polyBlep_cases t dt ht0 ht1 with ⟨hr1, hlo1, hhi1⟩ | ⟨hr1, hlo1, hhi1⟩ | hz1 <;>
          rcases polyBlep_cases (t + 1/2) dt (by linarith) (by linarith) with
            ⟨hr2, hlo2, hhi2⟩ | ⟨hr2, hlo2, hhi2⟩ | hz2
        · linarith
        · linarith
        · rw [hz2]; constructor <;> linarith
        · linarith
        · linarith
        · linarith
        · linarith
        · rw [hz1]; constructor <;> linarith
        · rw [hz1, hz2]; norm_num
      · rw [if_neg (by linarith : ¬ t < 1/2), if_neg ht]
        rcases polyBlep_cases t dt ht0 ht1 with ⟨hr1, hlo1, hhi1⟩ | ⟨hr1, hlo1, hhi1⟩ | hz1 <;>
          rcases polyBlep_cases (t + 1/2 - 1) dt (by linarith) (by linarith) with
            ⟨hr2, hlo2, hhi2⟩ | ⟨hr2, hlo2, hhi2⟩ | hz2
        · linarith
        · linarith
        · linarith
        · linarith
        · linarith
        · rw [hz2]; constructor <;> linarith
        · constructor <;> linarith
        · linarith
        · rw [hz1, hz2]; norm_num
  | Triangle =>
      have hs : Oscillator.waveSample OscillatorWaveform.Triangle t dt
          = if t < 1/2 then -1 + 4 * t else 3 - 4 * t := rfl
      rw [hs]
      split_ifs with h
      · constructor <;> linarith
      · constructor <;> linarith

/-- The phase advance at the end of Oscillator::getNextSample keeps the
phase in [0,1) whenever the increment lies in [0,1]. -/
theorem phaseStep_mem (t dt : ℝ) (ht0 : 0 ≤ t) (ht1 : t < 1)
    (hd0 : 0 ≤ dt) (hd1 : dt ≤ 1) :
    0 ≤ Oscillator.phaseStep t dt ∧ Oscillator.phaseStep t dt < 1 := by
  unfold Oscillator.phaseStep
  split_ifs with h
  · constructor <;> linarith
  · constructor <;> linarith

/-- Claim C1: for every waveform (Sine, Saw, Square, Triangle) and every
steady-state frequency up to Nyquist/2 (phaseDelta ≤ 0.25), with the phase
in its invariant range [0,1), the value returned by
Oscillator::getNextSample — including the polyBLEP corrections applied to
Saw and Square — lies in [-1, 1]. -/
theorem oscillator_output_in_range (st : Oscillator)
    (ht0 : 0 ≤ st.currentPhase) (ht1 : st.currentPhase < 1)
    (hd0 : 0 ≤ st.phaseDelta) (hd1 : st.phaseDelta ≤ 1/4) :
    -1 ≤ (Oscillator.getNextSample st).1 ∧ (Oscillator.getNextSample st).1 ≤ 1 :=
  waveSample_mem st.currentWaveform st.currentPhase st.phaseDelta ht0 ht1 hd0 hd1

/-- Witness for C1: the bound instantiated at the Saw waveform with phase 0
and phase increment 1/4. -/
theorem oscillator_output_in_range_witness :
    ((0:ℝ) ≤ 0 ∧ (0:ℝ) < 1 ∧ (0:ℝ) ≤ 1/4 ∧ (1/4:ℝ) ≤ 1/4) ∧
    (-1 ≤ (Oscillator.getNextSample
        { currentWaveform := OscillatorWaveform.Saw, currentPhase := 0,
          phaseDelta := 1/4 }).1 ∧
     (Oscillator.getNextSample
        { currentWaveform := OscillatorWaveform.Saw, currentPhase := 0,
          phaseDelta := 1/4 }).1 ≤ 1) :=
  ⟨by norm_num,
   oscillator_output_in_range
     { currentWaveform := OscillatorWaveform.Saw, currentPhase := 0, phaseDelta := 1/4 }
     (by norm_num) (by norm_num) (by norm_num) (by norm_num)⟩

/-- Counterexample to C2 as stated: with phaseIncrement 5/2 (a frequency of
2.5 times the sample rate, reachable through setFrequency), a single call
from phase 0 leaves the phase at 3/2, outside [0,1): the single
subtraction of 1 does not wrap it back. -/
theorem oscillator_phase_counterexample :
    ((Oscillator.getNextSample
        { currentWaveform := OscillatorWaveform.Sine, currentPhase := 0,
          phaseDelta := 5/2 }).2).currentPhase = 3/2 ∧
    ¬ (((Oscillator.getNextSample
        { currentWaveform := OscillatorWaveform.Sine, currentPhase := 0,
          phaseDelta := 5/2 }).2).currentPhase < 1) := by
  norm_num [Oscillator.getNextSample, Oscillator.phaseStep]

/-- Claim C2 (amended): provided the phase increment lies in [0,1]
(frequency at most the sample rate), every sequence of calls to
Oscillator::getNextSample starting from a phase in [0,1) keeps the phase
in [0,1) after each call. -/
theorem oscillator_phase_invariant (st : Oscillator) (n : ℕ)
    (ht0 : 0 ≤ st.currentPhase) (ht1 : st.currentPhase < 1)
    (hd0 : 0 ≤ st.phaseDelta) (hd1 : st.phaseDelta ≤ 1) :
    0 ≤ (Oscillator.iterate n st).currentPhase ∧
    (Oscillator.iterate n st).currentPhase < 1 := by
  induction n generalizing st with
  | zero => exact ⟨ht0, ht1⟩
  | succ n ih =>
      have hstep := phaseStep_mem st.currentPhase st.phaseDelta ht0 ht1 hd0 hd1
      rw [Oscillator.iterate]
      exact ih _ hstep.1 hstep.2 hd0 hd1

/-- Witness for the amended C2: three calls at phase increment 1/2 starting
from phase 0 keep the phase inside [0,1). -/
theorem oscillator_phase_invariant_witness :
    ((0:ℝ) ≤ 0 ∧ (0:ℝ) < 1 ∧ (0:ℝ) ≤ 1/2 ∧ (1/2:ℝ) ≤ 1) ∧
    (0 ≤ (Oscillator.iterate 3
        { currentWaveform := OscillatorWaveform.Sine, currentPhase := 0,
          phaseDelta := 1/2 }).currentPhase ∧
     (Oscillator.iterate 3
        { currentWaveform := OscillatorWaveform.Sine, currentPhase := 0,
          phaseDelta := 1/2 }).currentPhase < 1) :=
  ⟨by norm_num,
   oscillator_phase_invariant
     { currentWaveform := OscillatorWaveform.Sine, currentPhase := 0, phaseDelta := 1/2 }
     3 (by norm_num) (by norm_num) (by norm_num) (by norm_num)⟩

/-- Claim C3: evaluation at the failing input. With the default single
unison voice (numVoices = 1), UnisonOscillator::setFrequency leaves
voiceDetune at its initialisation value 0, so sub-oscillator 0 is
programmed with frequency 440 * 0 = 0 (phase increment 0) instead of the
base frequency 440 (phase increment 440/44100 ≠ 0). -/
theorem unison_single_voice_gets_zero_frequency :
    ((UnisonOscillator.setFrequency 440 44100 UnisonOscillator.init).oscillators 0).phaseDelta
      = 0 ∧ (440 : ℝ) / 44100 ≠ 0 := by
  constructor
  · norm_num [UnisonOscillator.setFrequency, UnisonOscillator.init,
      UnisonOscillator.voiceDetune, Oscillator.setFrequency, Oscillator.init]
  · norm_num

/-- Claim C4: with stereoWidth = 0, every voice's pan is 0, both equal-power
gains equal cos(pi/4) = sin(pi/4), and the two normalized sums returned by
UnisonOscillator::getNextSampleStereo are identical, for every voice count
and every state of the sub-oscillators. -/
theorem unison_stereo_width_zero_mono (st : UnisonOscillator)
    (h : st.stereoWidth = 0) :
    ((UnisonOscillator.getNextSampleStereo st).1).1
      = ((UnisonOscillator.getNextSampleStereo st).1).2 := by
  have hg : ∀ i, UnisonOscillator.leftGain st i = UnisonOscillator.rightGain st i := by
    intro i
    have hp : UnisonOscillator.pan st i = 0 := by
      unfold UnisonOscillator.pan
      split_ifs with h1
      · rw [h, mul_zero]
      · rfl
    unfold UnisonOscillator.leftGain UnisonOscillator.rightGain UnisonOscillator.panAngle
    rw [hp]
    have ha : ((0 : ℝ) + 1) * 0.25 * Real.pi = Real.pi / 4 := by ring
    rw [ha, Real.cos_pi_div_four, Real.sin_pi_div_four]
  have hsum : Finset.sum (Finset.range st.numVoices.toNat)
      (fun i => (Oscillator.getNextSample (st.oscillators i)).1 * UnisonOscillator.leftGain st i)
      = Finset.sum (Finset.range st.numVoices.toNat)
      (fun i => (Oscillator.getNextSample (st.oscillators i)).1 * UnisonOscillator.rightGain st i) :=
    Finset.sum_congr rfl (fun i _ => by rw [hg i])
  unfold UnisonOscillator.getNextSampleStereo
  dsimp only
  rw [hsum]

/-- Witness for C4: a concrete 3-voice unison state with stereoWidth 0
yields an identical left and right sample. -/
theorem unison_stereo_width_zero_mono_witness :
    ({ numVoices := 3, detuneAmount := 0, stereoWidth := 0,
       oscillators := fun _ => Oscillator.init } : UnisonOscillator).stereoWidth = 0 ∧
    ((UnisonOscillator.getNextSampleStereo
      { numVoices := 3, detuneAmount := 0, stereoWidth := 0,
        oscillators := fun _ => Oscillator.init }).1).1
      = ((UnisonOscillator.getNextSampleStereo
      { numVoices := 3, detuneAmount := 0, stereoWidth := 0,
        oscillators := fun _ => Oscillator.init }).1).2 :=
  ⟨rfl, unison_stereo_width_zero_mono _ rfl⟩

/-- Counterexample to C5 as stated: SynthVoice::updateFilter stores an
out-of-range resonance (50, documented range [0.1, 10]) without clamping,
so not every externally supplied control value is clamped at its point of
entry. -/
theorem resonance_not_clamped_counterexample :
    (SynthVoice.updateFilter 1000 50 0 SynthVoice.init).filterResonance = 50 ∧
    ¬ ((SynthVoice.updateFilter 1000 50 0 SynthVoice.init).filterResonance ≤ 10) := by
  constructor
  · rfl
  · norm_num [SynthVoice.updateFilter]

/-- Claim C5 (amended): the unison control values are clamped at their
setters — voice count to [1,7], detune and stereo width to [0,1] — and the
cutoff actually applied to the filter is clamped to [20,20000] each sample
when the modulated cutoff is computed in renderNextBlock; cutoff and
resonance are stored unclamped by updateFilter. -/
theorem control_values_clamped (st : UnisonOscillator) (n : ℤ) (a w : ℝ)
    (base fenv famount : ℝ) :
    (1 ≤ (UnisonOscillator.setNumVoices n st).numVoices ∧
     (UnisonOscillator.setNumVoices n st).numVoices ≤ 7) ∧
    (0 ≤ (UnisonOscillator.setDetuneAmount a st).detuneAmount ∧
     (UnisonOscillator.setDetuneAmount a st).detuneAmount ≤ 1) ∧
    (0 ≤ (UnisonOscillator.setStereoWidth w st).stereoWidth ∧
     (UnisonOscillator.setStereoWidth w st).stereoWidth ≤ 1) ∧
    (20 ≤ SynthVoice.modulatedCutoff base fenv famount ∧
     SynthVoice.modulatedCutoff base fenv famount ≤ 20000) := by
  refine ⟨?_, ?_, ?_, ?_⟩
  · simpa [UnisonOscillator.setNumVoices, UnisonOscillator.maxVoices] using
      jlimit_mem (1 : ℤ) 7 n (by norm_num)
  · simpa [UnisonOscillator.setDetuneAmount] using
      jlimit_mem (0 : ℝ) 1 a (by norm_num)
  · simpa [UnisonOscillator.setStereoWidth] using
      jlimit_mem (0 : ℝ) 1 w (by norm_num)
  · simpa [SynthVoice.modulatedCutoff] using
      jlimit_mem (20 : ℝ) 20000 (base + fenv * (famount / 100) * 5000) (by norm_num)

/-- Claim C6: evaluation at the failing input. After startNote(60, 1.0)
followed by stopNote(0, allowTailOff = false) the voice is marked Free
(clearCurrentNote ran), yet the amplitude envelope is still active (it sits
in its Release stage, since stopNote never resets it), so the early-exit
guard of renderNextBlock does not fire and the release tail keeps being
rendered into the output buffer. -/
theorem immediate_stop_leaves_envelope_active :
    (SynthVoice.stopNote false (SynthVoice.startNote 60 1 SynthVoice.init)).cleared = true ∧
    ADSR.isActive
      (SynthVoice.stopNote false (SynthVoice.startNote 60 1 SynthVoice.init)).adsr = true := by
  constructor
  · rfl
  · rfl

/-- Claim C7: when the amplitude envelope is inactive,
SynthVoice::renderNextBlock does nothing — the output buffer and the whole
voice state (envelopes, oscillator phases, filter state, post-processor
parameters) are returned unchanged, for every abstract filter
implementation and noise stream. -/
theorem render_inactive_is_noop {F : Type} (fs : F → ℕ → ℝ → ℝ → ℝ → F × ℝ)
    (stream : ℕ → ℝ) (v : SynthVoice F) (buffer : ℕ → ℝ × ℝ)
    (startSample numSamples : ℕ) (h : ADSR.isActive v.adsr = false) :
    SynthVoice.renderNextBlock fs stream v buffer startSample numSamples = (v, buffer) := by
  unfold SynthVoice.renderNextBlock
  rw [h]
  simp

/-- Witness for C7: a fresh (idle) voice with the identity filter and a
zero noise stream is untouched by an 8-sample render call. -/
theorem render_inactive_is_noop_witness :
    ADSR.isActive SynthVoice.init.adsr = false ∧
    SynthVoice.renderNextBlock (fun s _ _ _ x => (s, x)) (fun _ => 0) SynthVoice.init
      (fun _ => (0, 0)) 0 8 = (SynthVoice.init, fun _ => (0, 0)) :=
  ⟨rfl, render_inactive_is_noop _ _ _ _ _ _ rfl⟩

/-- Claim C9: VintageProcessor::addAnalogNoise returns exactly 0 when
disabled, and when enabled with a normalized level in [0,1] and a uniform
draw in [0,1], its absolute value is at most 0.0003 * level * 100 =
0.03 * level. -/
theorem analog_noise_bounds (level r : ℝ) (hr0 : 0 ≤ r) (hr1 : r ≤ 1)
    (hl0 : 0 ≤ level) (hl1 : level ≤ 1) :
    VintageProcessor.addAnalogNoise false level r = 0 ∧
    |VintageProcessor.addAnalogNoise true level r| ≤ 0.03 * level := by
  constructor
  · rfl
  · show |(r * 2 - 1) * 0.0003 * level * 100| ≤ 0.03 * level
    rw [abs_le]
    constructor <;>
      nlinarith [mul_nonneg hl0 (by linarith : (0:ℝ) ≤ 1 - r), mul_nonneg hl0 hr0]

/-- Witness for C9: at level 1 and the extreme draw r = 1 the noise value
is 0.03, exactly at the bound. -/
theorem analog_noise_bounds_witness :
    ((0:ℝ) ≤ 1 ∧ (1:ℝ) ≤ 1) ∧
    VintageProcessor.addAnalogNoise false 1 1 = 0 ∧
    |VintageProcessor.addAnalogNoise true 1 1| ≤ 0.03 * 1 :=
  ⟨by norm_num,
   (analog_noise_bounds 1 1 (by norm_num) (by norm_num) (by norm_num) (by norm_num)).1,
   (analog_noise_bounds 1 1 (by norm_num) (by norm_num) (by norm_num) (by norm_num)).2⟩

/-- Claim C10: in each iteration of renderNextBlock's per-sample loop a
single noise value is drawn and the same value, scaled by the
amplitude-envelope value, is added to both output channels: replacing the
draw z by any other draw z' shifts the left and the right output of
renderSample by exactly the same amount (the injected noise is fully
correlated across the two stereo channels). -/
theorem render_noise_identical_on_both_channels {F : Type}
    (fs : F → ℕ → ℝ → ℝ → ℝ → F × ℝ) (v : SynthVoice F) (z zAlt : ℝ) :
    (SynthVoice.renderSample fs z v).2.1 - (SynthVoice.renderSample fs zAlt v).2.1
      = (SynthVoice.renderSample fs z v).2.2 - (SynthVoice.renderSample fs zAlt v).2.2 := by
  unfold SynthVoice.renderSample
  dsimp only
  ring
